import Mathlib

/-!
Verification of the audiobook-tools repository (devtea/audiobook-tools).

This file shallowly embeds the two pipelines carrying the repository's logic:

* the `organize` pipeline of `src/subcommands/files.py` (`organize_files`):
  per-file author/title resolution from MP4 tags with filename-regex fallback,
  destination-path construction, the no-clobber move with per-file error
  isolation, and the prune-candidate accumulation with the trailing prune pass;
* the chapter metadata builder of the `concat` command
  (`generate_metadata_file`, identical in `src/subcommands/files.py` and
  `src/audiobook_tools.py`): per-file chapter-number/title extraction and the
  cumulative start/end offset computation.

Strings are modelled as `List Char` (`PyStr`).  The two regular expressions of
the source are embedded as executable matchers implementing the semantics of
the concrete patterns (greedy matching with backtracking, anchors `^`/`$` as
string boundaries; the dot metacharacter is modelled as "any character", which
agrees with Python on newline-free filenames).  The filesystem is modelled as
an association list from paths to abstract file contents; directories exist
implicitly through the file paths beneath them, so the only effect of
`os.removedirs` visible in the model is its success or failure on the leaf
directory.  `os.chmod` calls change no modelled state (permissions are outside
the model).  The one modelled cause of a `shutil.move` exception is a missing
source file; the `except` clause of the source catches any exception the move
raises and the model's failure branch embeds that handler.
-/

/-- Strings of the source are embedded as lists of characters. -/
abbrev PyStr := List Char

/-- Shorthand turning a Lean string literal into the embedded representation. -/
def str (s : String) : PyStr := s.data

/-- The single-quote character, kept out of string literals. -/
def squote : Char := Char.ofNat 39

/-- The double-quote character, kept out of string literals. -/
def dquote : Char := Char.ofNat 34

/-- `SHITTY_REJECT_CHARACTERS_WE_HATES` from `util/constants.py` /
`audiobook_tools.py`: the reject set is the single and double quote. -/
def SHITTY_REJECT_CHARACTERS_WE_HATES : List Char := [squote, dquote]

/-- `filter_path_name` of `organize_files`: keep the characters not in the
reject set. -/
def filter_path_name (p : PyStr) : PyStr :=
  p.filter (fun c => !(SHITTY_REJECT_CHARACTERS_WE_HATES.contains c))

/-- Python `str.split(sep)` for a one-character separator: `"".split` gives
`[""]`, separators at the edges give empty fragments. -/
def splitChar (sep : Char) : PyStr → List PyStr
  | [] => [[]]
  | c :: rest =>
    match splitChar sep rest with
    | [] => [[]]
    | g :: gs => if c = sep then [] :: g :: gs else (c :: g) :: gs

/-- Lexicographic comparison of strings by character code, the order Python's
`list.sort` uses on `str` values. -/
def lexLe : PyStr → PyStr → Bool
  | [], _ => true
  | _ :: _, [] => false
  | a :: as, b :: bs => if a = b then lexLe as bs else decide (a < b)

/-- Insert into a `lexLe`-sorted list of names. -/
def insertName (x : PyStr) : List PyStr → List PyStr
  | [] => [x]
  | y :: ys => if lexLe x y then x :: y :: ys else y :: insertName x ys

/-- Sorting a list of names, embedding Python's `list.sort()` on strings (for
strings any correct sort produces the same list because the order is
antisymmetric). -/
def sortNames : List PyStr → List PyStr
  | [] => []
  | x :: xs => insertName x (sortNames xs)

/-- `os.path.join` for POSIX paths as used by the source: an absolute second
component replaces the first, otherwise a `/` separates the parts unless one
is already there. -/
def pjoin (a b : PyStr) : PyStr :=
  if b.head? = some '/' then b
  else if a = [] then b
  else if a.getLast? = some '/' then a ++ b
  else a ++ '/' :: b

/-- `os.path.basename`: the part after the last `/`. -/
def basename (p : PyStr) : PyStr :=
  (splitChar '/' p).getLastD []

/-- `os.path.dirname` (posixpath): the part up to the last `/`, with trailing
slashes stripped unless the head is all slashes. -/
def dirname (p : PyStr) : PyStr :=
  let tailLen := (p.reverse.takeWhile (fun c => !(c = '/'))).length
  let head := p.take (p.length - tailLen)
  if head.any (fun c => !(c = '/')) then (head.reverse.dropWhile (fun c => c = '/')).reverse
  else head

/-! ## The organize pattern `^([^-]*) - (.*).m4b$`

`organize_files` compiles `r"^([^-]*) - (.*).m4b$"` (note the unescaped dot
before `m4b`) and runs `pattern.findall` on the base filename.  Because
`[^-]*` cannot cross a dash and the literal ` - ` must follow it, the matched
dash is forced to be the first dash of the string; because the pattern is
anchored on both sides, a match can only start at position 0 and end at the
end, so the groups are uniquely determined. -/

/-- The `([^-]*) - ` part of the organize pattern: the maximal dash-free
prefix followed by the literal separator.  Returns group 1 and the remainder
after the separator. -/
def organizePrefixSplit (cs : PyStr) : Option (PyStr × PyStr) :=
  let k := (cs.takeWhile (fun c => !(c = '-'))).length
  if k < cs.length ∧ 1 ≤ k ∧ (cs.drop (k - 1)).take 3 = str " - " then
    some (cs.take (k - 1), cs.drop (k + 2))
  else none

/-- The `(.*).m4b$` part as written in the source, with the dot before `m4b`
unescaped: greedy group 2 leaves one arbitrary character and the literal
`m4b` at the end. -/
def organizeRest (g1 rest : PyStr) : Option (PyStr × PyStr) :=
  if 4 ≤ rest.length ∧ rest.drop (rest.length - 3) = str "m4b" then
    some (g1, rest.take (rest.length - 4))
  else none

/-- The full organize pattern of the source, `^([^-]*) - (.*).m4b$`. -/
def organizeMatch (cs : PyStr) : Option (PyStr × PyStr) :=
  match organizePrefixSplit cs with
  | some (g1, rest) => organizeRest g1 rest
  | none => none

/-- The `(.*)\.m4b$` part of the pattern as the specification writes it, with
the dot escaped: group 2 is everything before the literal `.m4b` suffix.
This definition follows the spec's words and exists to be compared with
`organizeRest`, the definition taken from the source. -/
def specRest (g1 rest : PyStr) : Option (PyStr × PyStr) :=
  if 4 ≤ rest.length ∧ rest.drop (rest.length - 4) = str ".m4b" then
    some (g1, rest.take (rest.length - 4))
  else none

/-- The author/title pattern as stated by the specification,
`^([^-]*) - (.*)\.m4b$`.  Definition from the spec's words, for comparison
with `organizeMatch`. -/
def specOrganizeMatch (cs : PyStr) : Option (PyStr × PyStr) :=
  match organizePrefixSplit cs with
  | some (g1, rest) => specRest g1 rest
  | none => none

/-- `re.findall` of the organize pattern: the scan tries every start
position, the `^` assertion restricts a match to position 0, and the `$`
anchor makes the groups at position 0 those of `organizeMatch`. -/
def findallOrganize (cs : PyStr) : List (PyStr × PyStr) :=
  (List.range (cs.length + 1)).filterMap
    (fun i => if i = 0 then organizeMatch cs else none)

/-! ## The chapter pattern `^(\d+)(.+)\.[^\.]+$`

`generate_metadata_file` matches each track filename with
`re.compile(r"^(\d+)(.+)\.[^\.]+$").match(file)`.  Because `[^.]+$` is a
nonempty dot-free suffix, the escaped dot is forced to be the last dot of the
string; the greedy digit run backs off just enough to leave `(.+)` nonempty.
`\d` is modelled as an ASCII digit (the filenames in scope are ASCII). -/

/-- Split around the last dot: `(body, extension)` with the extension nonempty
and dot-free, as `\.[^\.]+$` requires. -/
def lastDotSplit (cs : PyStr) : Option (PyStr × PyStr) :=
  let ext := cs.reverse.takeWhile (fun c => !(c = '.'))
  if ext.length < cs.length ∧ ext ≠ [] then
    some (cs.take (cs.length - ext.length - 1), ext.reverse)
  else none

/-- The chapter pattern of the source, `^(\d+)(.+)\.[^\.]+$`: returns
`(group1, group2)` = (digit run, remainder before the extension dot). -/
def chapterMatch (cs : PyStr) : Option (PyStr × PyStr) :=
  match lastDotSplit cs with
  | none => none
  | some (body, _ext) =>
    let k := (body.takeWhile (fun c => c.isDigit)).length
    let d := min k (body.length - 1)
    if 1 ≤ d then some (body.take d, body.drop d) else none

/-! ## Chapter metadata builder (`generate_metadata_file`) -/

/-- One chapter dictionary of `generate_metadata_file`; the `stop` field
embeds the Python dict key `"end"` (a Lean keyword). -/
structure Chapter where
  duration : Nat
  title : PyStr
  start : Nat
  stop : Nat
deriving DecidableEq, Repr

instance : Inhabited Chapter := ⟨⟨0, [], 0, 0⟩⟩

/-- The per-file loop of `generate_metadata_file`: each file must match the
chapter pattern (`m[1]`/`m[2]` on a failed match raises, which is fatal to the
whole job), and each file carries its probed duration in microseconds.
Returns the `(duration, title)` pairs in order. -/
def extractEntries : List (PyStr × Nat) → Option (List (Nat × PyStr))
  | [] => some []
  | fd :: rest =>
    match chapterMatch fd.1 with
    | none => none
    | some m =>
      match extractEntries rest with
      | none => none
      | some es => some ((fd.2, m.2) :: es)

/-- The offset loop of `generate_metadata_file`, unrolled: starting from a
given start offset, `end = start + duration` and the next chapter starts at
`end + 1`. -/
def buildOffsets : Nat → List (Nat × PyStr) → List Chapter
  | _, [] => []
  | s, e :: rest => ⟨e.1, e.2, s, s + e.1⟩ :: buildOffsets (s + e.1 + 1) rest

/-- `chapters[0]["start"] = 0` followed by the offset loop.  On an empty job
the source's `chapters[0]` raises `IndexError`, embedded as `none`. -/
def buildChapters (es : List (Nat × PyStr)) : Option (List Chapter) :=
  match es with
  | [] => none
  | _ :: _ => some (buildOffsets 0 es)

/-- `generate_metadata_file` (chapter construction): title extraction for
every file, then offsets.  The probed durations arrive with the filenames (the
probe is the external collaborator). -/
def generate_metadata_file (input : List (PyStr × Nat)) : Option (List Chapter) :=
  match extractEntries input with
  | none => none
  | some es => buildChapters es

/-! ## The organize pipeline (`organize_files` of `src/subcommands/files.py`) -/

/-- The MP4 tag values the resolver reads, each `some v` embedding
`m4b[tag][0] = v` and `none` a missing tag (`KeyError`, or an unreadable
file for which every access raises). -/
structure Tags where
  albumArtist : Option PyStr
  artist : Option PyStr
  album : Option PyStr
  trackTitle : Option PyStr
deriving DecidableEq, Repr

/-- A source file: its path and the tag values its metadata yields. -/
structure SrcFile where
  path : PyStr
  tags : Tags
deriving DecidableEq, Repr

/-- Tags of a file whose metadata read fails entirely. -/
def noTags : Tags := ⟨none, none, none, none⟩

/-- The author phase of the resolver (files.py lines 118-141): split both
artist tags on `;` (`TAG_DELIMITER`), sort, and adopt the first sorted
album-artist name when the sorted lists agree; any missing tag or mismatch
leaves `author_name` as the empty string. -/
def tagAuthor (t : Tags) : PyStr :=
  match t.albumArtist, t.artist with
  | some aa, some a =>
    let aal := sortNames (splitChar ';' aa)
    let al := sortNames (splitChar ';' a)
    if aal = al then aal.headD [] else []
  | _, _ => []

/-- The title phase of the resolver (files.py lines 143-156): adopt the track
title when it equals the album tag; otherwise `title_name` stays empty. -/
def tagTitle (t : Tags) : PyStr :=
  match t.trackTitle, t.album with
  | some tt, some al => if tt = al then tt else []
  | _, _ => []

/-- The resolution logic of the loop body (files.py lines 105-175): when both
tag-derived names are nonempty they are kept; otherwise `findall` runs on the
base filename and a match overwrites both names (sanitized), while no match
leaves the tag-derived names as they are. -/
def resolveNames (f : SrcFile) : PyStr × PyStr :=
  let author0 := tagAuthor f.tags
  let title0 := tagTitle f.tags
  if title0 ≠ [] ∧ author0 ≠ [] then (author0, title0)
  else
    match findallOrganize (basename f.path) with
    | (g1, g2) :: _ => (filter_path_name g1, filter_path_name g2)
    | [] => (author0, title0)

/-- The resolution logic with the source's `raise Exception("More than one
match found")` branch kept (files.py lines 165-166): `Except.error ()` embeds
the uncaught raise. -/
def resolveNamesE (f : SrcFile) : Except Unit (PyStr × PyStr) :=
  let author0 := tagAuthor f.tags
  let title0 := tagTitle f.tags
  if title0 ≠ [] ∧ author0 ≠ [] then Except.ok (author0, title0)
  else if 1 < (findallOrganize (basename f.path)).length then Except.error ()
  else
    match findallOrganize (basename f.path) with
    | (g1, g2) :: _ => Except.ok (filter_path_name g1, filter_path_name g2)
    | [] => Except.ok (author0, title0)

/-- Destination path construction (files.py lines 177-186):
`new_file = filter(author - title.m4b)`, `author_dir = join(destination,
filter(author))`, `title_dir = join(author_dir, filter(title))`,
`new_file_path = join(title_dir, new_file)`. -/
def destPath (dest : PyStr) (f : SrcFile) : PyStr :=
  let a := (resolveNames f).1
  let t := (resolveNames f).2
  let new_file := filter_path_name (a ++ str " - " ++ t ++ str ".m4b")
  let author_dir := pjoin dest (filter_path_name a)
  let title_dir := pjoin author_dir (filter_path_name t)
  pjoin title_dir new_file

/-- The filesystem: an association list from file paths to abstract
contents.  Directories are implicit in the paths. -/
abbrev FS := List (PyStr × Nat)

/-- Content lookup (`os.path.isfile` / reading a file). -/
def getFile : FS → PyStr → Option Nat
  | [], _ => none
  | e :: rest, p => if e.1 = p then some e.2 else getFile rest p

/-- Remove every entry at a path (the delete half of a move). -/
def removeFile : FS → PyStr → FS
  | [], _ => []
  | e :: rest, p => if e.1 = p then removeFile rest p else e :: removeFile rest p

/-- Write content at a path (the copy half of a move). -/
def setFile (fs : FS) (p : PyStr) (v : Nat) : FS := (p, v) :: removeFile fs p

/-- `os.path.isfile`. -/
def isfile (fs : FS) (p : PyStr) : Bool := (getFile fs p).isSome

/-- Whether `p` lies strictly below directory `d`. -/
def underDir (d p : PyStr) : Bool := List.isPrefixOf (d ++ ['/']) p

/-- A directory is empty when no file lies below it (`os.removedirs` fails on
a non-empty leaf). -/
def dirEmpty (fs : FS) (d : PyStr) : Bool := !(fs.any (fun e => underDir d e.1))

/-- The observable events of one `organize` run, in order. -/
inductive Event where
  | moved (src dst : PyStr)
  | skippedExists (dst : PyStr)
  | failedMove (src : PyStr)
  | pruned (d : PyStr)
  | pruneFailed (d : PyStr)
deriving DecidableEq, Repr

/-- Whether an event belongs to the prune pass. -/
def isPruneEvent : Event → Bool
  | Event.pruned _ => true
  | Event.pruneFailed _ => true
  | _ => false

/-- State threaded through the `organize_files` loop: the filesystem, the
accumulated `prune_list`, and the event trace. -/
structure OrgState where
  fs : FS
  pruneList : List PyStr
  events : List Event
deriving DecidableEq, Repr

/-- `if parent_dir not in prune_list: prune_list.append(parent_dir)`
(files.py lines 222-224). -/
def addPrune (l : List PyStr) (d : PyStr) : List PyStr :=
  if l.contains d then l else l ++ [d]

/-- One iteration of the `organize_files` loop (files.py lines 102-224) for
one file: resolve names, build the destination path, then either skip an
existing destination (still recording the parent directory for pruning), move
the file (recording the parent directory), or catch the move exception and
continue without recording the parent directory.  The modelled exception
cause is a missing source file. -/
def processFile (dest : PyStr) (st : OrgState) (f : SrcFile) : OrgState :=
  let newPath := destPath dest f
  if isfile st.fs newPath then
    { st with
      events := st.events ++ [Event.skippedExists newPath],
      pruneList := addPrune st.pruneList (dirname f.path) }
  else
    match getFile st.fs f.path with
    | some content =>
      { fs := setFile (removeFile st.fs f.path) newPath content,
        pruneList := addPrune st.pruneList (dirname f.path),
        events := st.events ++ [Event.moved f.path newPath] }
    | none => { st with events := st.events ++ [Event.failedMove f.path] }

/-- One iteration of the prune pass (files.py lines 229-234):
`os.removedirs(dir)` succeeds on an empty directory and raises otherwise; the
exception is caught and logged. -/
def pruneStep (st : OrgState) (d : PyStr) : OrgState :=
  if dirEmpty st.fs d then { st with events := st.events ++ [Event.pruned d] }
  else { st with events := st.events ++ [Event.pruneFailed d] }

/-- `organize_files` (files.py): the per-file loop over the file list, then,
when pruning is enabled, the prune pass over the accumulated list. -/
def organize_files (dest : PyStr) (prune : Bool) (files : List SrcFile) (fs0 : FS) : OrgState :=
  let st := files.foldl (processFile dest) ⟨fs0, [], []⟩
  if prune then st.pruneList.foldl pruneStep st else st

/-! ## Offset-loop lemmas -/

theorem buildOffsets_length (es : List (Nat × PyStr)) :
    ∀ s, (buildOffsets s es).length = es.length := by
  induction es with
  | nil => intro s; rfl
  | cons e rest ih => intro s; simp [buildOffsets, ih]

theorem buildOffsets_head (e : Nat × PyStr) (rest : List (Nat × PyStr)) (s : Nat) :
    ((buildOffsets s (e :: rest)).getD 0 default).start = s := by
  simp [buildOffsets]

theorem buildOffsets_stop (es : List (Nat × PyStr)) :
    ∀ s i, i < es.length →
      ((buildOffsets s es).getD i default).stop
        = ((buildOffsets s es).getD i default).start + (es.getD i default).1 := by
  induction es with
  | nil => intro s i h; simp at h
  | cons e rest ih =>
    intro s i h
    cases i with
    | zero => simp [buildOffsets]
    | succ n =>
      simp only [buildOffsets, List.getD_cons_succ]
      exact ih _ n (by simpa using h)

theorem buildOffsets_gap (es : List (Nat × PyStr)) :
    ∀ s i, i + 1 < es.length →
      ((buildOffsets s es).getD (i + 1) default).start
        = ((buildOffsets s es).getD i default).stop + 1 := by
  induction es with
  | nil => intro s i h; simp at h
  | cons e rest ih =>
    intro s i h
    cases i with
    | zero =>
      cases rest with
      | nil => simp at h
      | cons e2 r2 => simp [buildOffsets]
    | succ n =>
      simp only [buildOffsets, List.getD_cons_succ]
      exact ih _ n (by simpa using h)

theorem buildOffsets_title (es : List (Nat × PyStr)) :
    ∀ s i, i < es.length →
      ((buildOffsets s es).getD i default).title = (es.getD i default).2 := by
  induction es with
  | nil => intro s i h; simp at h
  | cons e rest ih =>
    intro s i h
    cases i with
    | zero => simp [buildOffsets]
    | succ n =>
      simp only [buildOffsets, List.getD_cons_succ]
      exact ih _ n (by simpa using h)

theorem extractEntries_getD (input : List (PyStr × Nat)) :
    ∀ es, extractEntries input = some es →
      es.length = input.length ∧
      ∀ i, i < input.length →
        (es.getD i default).2 = ((chapterMatch (input.getD i default).1).getD default).2 := by
  induction input with
  | nil =>
    intro es h
    simp only [extractEntries, Option.some.injEq] at h
    subst h
    exact ⟨rfl, fun i hi => by simp at hi⟩
  | cons fd rest ih =>
    intro es h
    simp only [extractEntries] at h
    cases hm : chapterMatch fd.1 with
    | none => rw [hm] at h; simp at h
    | some m =>
      rw [hm] at h
      cases hr : extractEntries rest with
      | none => rw [hr] at h; simp at h
      | some es2 =>
        rw [hr] at h
        simp only [Option.some.injEq] at h
        subst h
        obtain ⟨hlen, hget⟩ := ih es2 hr
        refine ⟨by simp [hlen], ?_⟩
        intro i hi
        cases i with
        | zero => simp [hm]
        | succ n =>
          simp only [List.getD_cons_succ]
          exact hget n (by simpa using hi)

/-- C1: for every ordered non-empty list of chapter durations (in
microseconds), the chapter list built by the metadata builder's offset loop
satisfies `start_0 = 0`, `end_i = start_i + d_i` for every `i < N`, and
`start_(i+1) = end_i + 1` for every `i < N - 1`. -/
theorem chapter_offsets_contiguous (es : List (Nat × PyStr)) (h : es ≠ []) :
    ∃ chs, buildChapters es = some chs ∧ chs.length = es.length
      ∧ (chs.getD 0 default).start = 0
      ∧ (∀ i, i < es.length →
          (chs.getD i default).stop = (chs.getD i default).start + (es.getD i default).1)
      ∧ (∀ i, i + 1 < es.length →
          (chs.getD (i + 1) default).start = (chs.getD i default).stop + 1) := by
  cases es with
  | nil => exact absurd rfl h
  | cons e rest =>
    exact ⟨buildOffsets 0 (e :: rest), rfl, buildOffsets_length _ 0,
      buildOffsets_head e rest 0,
      fun i hi => buildOffsets_stop _ 0 i hi,
      fun i hi => buildOffsets_gap _ 0 i hi⟩

/-- Witness for C1: the offset invariant at the concrete two-chapter input
with durations 5 and 7. -/
theorem chapter_offsets_contiguous_witness :
    ∃ chs, buildChapters [(5, str "a"), (7, str "b")] = some chs
      ∧ chs.length = [(5, str "a"), (7, str "b")].length
      ∧ (chs.getD 0 default).start = 0
      ∧ (∀ i, i < [(5, str "a"), (7, str "b")].length →
          (chs.getD i default).stop
            = (chs.getD i default).start + ([(5, str "a"), (7, str "b")].getD i default).1)
      ∧ (∀ i, i + 1 < [(5, str "a"), (7, str "b")].length →
          (chs.getD (i + 1) default).start = (chs.getD i default).stop + 1) :=
  chapter_offsets_contiguous [(5, str "a"), (7, str "b")] (by decide)

/-- C6 counterexample: on the claim's own example the emitted titles are
`" Chapter One"` and `" Chapter Two"` — the second capture group with its
leading whitespace kept, because the source uses `m[2]` without `strip()` —
not the trimmed titles the claim states. -/
theorem chapter_title_not_trimmed_cex :
    generate_metadata_file
        [(str "01 Chapter One.mp3", 1000000), (str "02 Chapter Two.mp3", 2000000)]
      = some [⟨1000000, str " Chapter One", 0, 1000000⟩,
              ⟨2000000, str " Chapter Two", 1000001, 3000001⟩]
    ∧ str " Chapter One" ≠ str "Chapter One" := by decide

/-- C6 (amended): for every track filename matching the chapter pattern, the
emitted chapter title is the second capture group verbatim — surrounding
whitespace is kept, not trimmed; on the claim's example the titles are
`" Chapter One"` / `" Chapter Two"` with offsets `{start 0, end 1000000}`
and `{start 1000001, end 3000001}`. -/
theorem chapter_title_verbatim :
    (∀ input chs i g1 g2, generate_metadata_file input = some chs →
        i < input.length → chapterMatch (input.getD i default).1 = some (g1, g2) →
        (chs.getD i default).title = g2)
    ∧ generate_metadata_file
          [(str "01 Chapter One.mp3", 1000000), (str "02 Chapter Two.mp3", 2000000)]
        = some [⟨1000000, str " Chapter One", 0, 1000000⟩,
                ⟨2000000, str " Chapter Two", 1000001, 3000001⟩] := by
  constructor
  · intro input chs i g1 g2 hgen hi hm
    unfold generate_metadata_file at hgen
    cases he : extractEntries input with
    | none => rw [he] at hgen; simp at hgen
    | some es =>
      rw [he] at hgen
      obtain ⟨hlen, hget⟩ := extractEntries_getD input es he
      cases es with
      | nil => simp [buildChapters] at hgen
      | cons e0 es0 =>
        simp only [buildChapters, Option.some.injEq] at hgen
        subst hgen
        have h1 := buildOffsets_title (e0 :: es0) 0 i (by rw [hlen]; exact hi)
        rw [h1, hget i hi, hm]
        rfl
  · decide

/-- Witness for the amended C6 at the first chapter of the claim's example. -/
theorem chapter_title_verbatim_witness :
    (([⟨1000000, str " Chapter One", 0, 1000000⟩,
       ⟨2000000, str " Chapter Two", 1000001, 3000001⟩] : List Chapter).getD 0 default).title
      = str " Chapter One" :=
  chapter_title_verbatim.1
    [(str "01 Chapter One.mp3", 1000000), (str "02 Chapter Two.mp3", 2000000)] _ 0
    (str "01") (str " Chapter One") (by decide) (by decide) (by decide)

/-! ## findall and resolver lemmas -/

theorem filterMap_const_none (l : List Nat) :
    l.filterMap (fun _ => (none : Option (PyStr × PyStr))) = [] := by
  induction l with
  | nil => rfl
  | cons a l ih => simp [List.filterMap_cons, ih]

theorem findallOrganize_eq (cs : PyStr) :
    findallOrganize cs = (organizeMatch cs).toList := by
  unfold findallOrganize
  rw [List.range_succ_eq_map, List.filterMap_cons]
  have h2 : ((List.range cs.length).map Nat.succ).filterMap
      (fun i => if i = 0 then organizeMatch cs else none) = [] := by
    rw [List.filterMap_map]
    have he : ((fun i => if i = 0 then organizeMatch cs else none) ∘ Nat.succ)
        = (fun _ => (none : Option (PyStr × PyStr))) := by
      funext i; simp
    rw [he, filterMap_const_none]
  cases hm : organizeMatch cs with
  | none => simp [h2]
  | some m => simp [h2]

/-- C9: the anchored pattern `^([^-]*) - (.*).m4b$` produces at most one
`findall` match, so the `raise Exception("More than one match found")` branch
of the resolver is dead code: the resolution with the raise branch kept
(`resolveNamesE`) always returns `ok` with the raise-free result. -/
theorem pattern_at_most_one_match :
    (∀ cs, (findallOrganize cs).length ≤ 1)
    ∧ (∀ f, resolveNamesE f = Except.ok (resolveNames f)) := by
  have hlen : ∀ cs, (findallOrganize cs).length ≤ 1 := by
    intro cs
    rw [findallOrganize_eq]
    cases organizeMatch cs <;> simp
  refine ⟨hlen, ?_⟩
  intro f
  simp only [resolveNamesE, resolveNames]
  by_cases hc : tagTitle f.tags ≠ [] ∧ tagAuthor f.tags ≠ []
  · rw [if_pos hc, if_pos hc]
  · rw [if_neg hc, if_neg hc]
    have h1 : ¬ 1 < (findallOrganize (basename f.path)).length := by
      have := hlen (basename f.path); omega
    rw [if_neg h1]
    cases h : findallOrganize (basename f.path) with
    | nil => rfl
    | cons m rest =>
      obtain ⟨g1, g2⟩ := m
      rfl

/-- C3 counterexample: metadata that is self-consistent in the claim's sense
— the sorted semicolon-split artist sets are equal (tags `";A"` both) and the
track title equals the album (`"T"`) — but whose first sorted name is the
empty string.  The source tests Python string truthiness, so it falls back to
filename parsing and returns `("A", "B")` from `"A - B.m4b"` instead of the
adopted tag values `("", "T")`. -/
theorem metadata_adoption_empty_name_cex :
    resolveNames ⟨str "A - B.m4b",
        ⟨some (str ";A"), some (str ";A"), some (str "T"), some (str "T")⟩⟩
      = (str "A", str "B")
    ∧ sortNames (splitChar ';' (str ";A")) = sortNames (splitChar ';' (str ";A"))
    ∧ (str "T" : PyStr) = str "T"
    ∧ (str "A", str "B")
        ≠ ((sortNames (splitChar ';' (str ";A"))).headD [], str "T") := by
  decide

/-- C3 (amended): for every file whose semicolon-split artist sets agree
after sorting and whose track title equals the album, the resolver adopts the
first sorted name as author and the track title as title verbatim, with no
filename fallback — provided both adopted values are nonempty (the source
tests string truthiness, so an empty adopted author or title triggers the
fallback, as the counterexample shows). -/
theorem metadata_adoption_nonempty (f : SrcFile) (aa a al tt : PyStr)
    (h1 : f.tags.albumArtist = some aa) (h2 : f.tags.artist = some a)
    (h3 : f.tags.album = some al) (h4 : f.tags.trackTitle = some tt)
    (hs : sortNames (splitChar ';' aa) = sortNames (splitChar ';' a))
    (ht : tt = al)
    (hA : (sortNames (splitChar ';' aa)).headD [] ≠ [])
    (hT : tt ≠ []) :
    resolveNames f = ((sortNames (splitChar ';' aa)).headD [], tt) := by
  have hauthor : tagAuthor f.tags = (sortNames (splitChar ';' aa)).headD [] := by
    unfold tagAuthor
    rw [h1, h2]
    simp [hs]
  have htitle : tagTitle f.tags = tt := by
    unfold tagTitle
    rw [h4, h3]
    simp [ht]
  simp only [resolveNames]
  rw [hauthor, htitle, if_pos ⟨hT, hA⟩]

/-- Witness for the amended C3 at a file with author tag `"Bob"` and title
tag `"T"`. -/
theorem metadata_adoption_nonempty_witness :
    resolveNames ⟨str "x.m4b",
        ⟨some (str "Bob"), some (str "Bob"), some (str "T"), some (str "T")⟩⟩
      = ((sortNames (splitChar ';' (str "Bob"))).headD [], str "T") :=
  metadata_adoption_nonempty _ (str "Bob") (str "Bob") (str "T") (str "T")
    rfl rfl rfl rfl (by decide) rfl (by decide) (by decide)

theorem organizeRest_eq_specRest (g1 rest : PyStr)
    (h : 4 ≤ rest.length → rest.drop (rest.length - 4) = str ".m4b") :
    organizeRest g1 rest = specRest g1 rest := by
  unfold organizeRest specRest
  by_cases hl : 4 ≤ rest.length
  · have h2 := h hl
    have h3 : rest.drop (rest.length - 3) = str "m4b" := by
      have hd := congrArg (List.drop 1) h2
      rw [List.drop_drop] at hd
      have e : rest.length - 4 + 1 = rest.length - 3 := by omega
      rw [e] at hd
      exact hd.trans (by decide)
    rw [if_pos ⟨hl, h3⟩, if_pos ⟨hl, h2⟩]
  · rw [if_neg (fun hc => hl hc.1), if_neg (fun hc => hl hc.1)]

theorem organizeMatch_eq_spec (cs : PyStr) (h4 : 4 ≤ cs.length)
    (hend : cs.drop (cs.length - 4) = str ".m4b") :
    organizeMatch cs = specOrganizeMatch cs := by
  unfold organizeMatch specOrganizeMatch
  cases hps : organizePrefixSplit cs with
  | none => rfl
  | some p =>
    obtain ⟨g1, rest⟩ := p
    apply organizeRest_eq_specRest
    intro hl
    simp only [organizePrefixSplit] at hps
    by_cases hc : ((cs.takeWhile (fun c => !(c = '-'))).length < cs.length
        ∧ 1 ≤ (cs.takeWhile (fun c => !(c = '-'))).length
        ∧ (cs.drop ((cs.takeWhile (fun c => !(c = '-'))).length - 1)).take 3 = str " - ")
    case pos =>
      rw [if_pos hc] at hps
      injection hps with hps
      have hrest : rest = cs.drop ((cs.takeWhile (fun c => !(c = '-'))).length + 2) :=
        (congrArg Prod.snd hps).symm
      subst hrest
      rw [List.length_drop] at hl
      rw [List.drop_drop, List.length_drop]
      have e : (cs.takeWhile (fun c => !(c = '-'))).length + 2
          + (cs.length - ((cs.takeWhile (fun c => !(c = '-'))).length + 2) - 4) = cs.length - 4 := by
        omega
      rw [e]
      exact hend
    case neg =>
      rw [if_neg hc] at hps
      simp at hps

/-- C4: for every file whose metadata leaves author or title unresolved, the
resolver falls back to matching the base filename and produces `(author,
title)` equal to the two capture groups with the reject characters removed;
on filenames ending in `.m4b` — the only filenames `get_file_list(source,
"m4b", ...)` feeds the loop — the source's pattern (with its unescaped dot
before `m4b`) agrees with the spec's `^([^-]*) - (.*)\.m4b$`; the file
`"Jane Doe - My Book.m4b"` with no readable metadata resolves under `/lib`
to `/lib/Jane Doe/My Book/Jane Doe - My Book.m4b`, and the author `OBrien`
with a quote sanitizes to path segment `OBrien`. -/
theorem filename_fallback_capture_groups :
    (∀ f g1 g2, (tagAuthor f.tags = [] ∨ tagTitle f.tags = []) →
        organizeMatch (basename f.path) = some (g1, g2) →
        resolveNames f = (filter_path_name g1, filter_path_name g2))
    ∧ (∀ cs, 4 ≤ cs.length → cs.drop (cs.length - 4) = str ".m4b" →
        organizeMatch cs = specOrganizeMatch cs)
    ∧ destPath (str "/lib") ⟨str "Jane Doe - My Book.m4b", noTags⟩
        = str "/lib/Jane Doe/My Book/Jane Doe - My Book.m4b"
    ∧ filter_path_name (['O', squote] ++ str "Brien") = str "OBrien" := by
  refine ⟨?_, organizeMatch_eq_spec, by decide, by decide⟩
  intro f g1 g2 hm hmatch
  have hcond : ¬ (tagTitle f.tags ≠ [] ∧ tagAuthor f.tags ≠ []) := by
    rcases hm with h | h
    · exact fun hc => hc.2 h
    · exact fun hc => hc.1 h
  simp only [resolveNames]
  rw [if_neg hcond, findallOrganize_eq, hmatch]
  rfl

/-- Witness for C4: the Jane Doe file with unreadable metadata resolves to
the sanitized capture groups. -/
theorem filename_fallback_capture_groups_witness :
    resolveNames ⟨str "Jane Doe - My Book.m4b", noTags⟩
      = (filter_path_name (str "Jane Doe"), filter_path_name (str "My Book")) :=
  filename_fallback_capture_groups.1 _ (str "Jane Doe") (str "My Book")
    (Or.inl (by decide)) (by decide)

/-! ## Filesystem and relocation lemmas -/

theorem getFile_removeFile (fs : FS) (p q : PyStr) :
    getFile (removeFile fs p) q = if q = p then none else getFile fs q := by
  induction fs with
  | nil => simp [removeFile, getFile]
  | cons e rest ih =>
    simp only [removeFile, getFile]
    by_cases he : e.1 = p
    · rw [if_pos he, ih]
      by_cases hq : q = p
      · simp [hq]
      · rw [if_neg hq, if_neg hq, if_neg (fun h => hq (h.symm.trans he))]
    · rw [if_neg he]
      simp only [getFile]
      by_cases heq : e.1 = q
      · rw [if_pos heq, if_neg (fun h => he (heq.trans h)), if_pos heq]
      · rw [if_neg heq, ih]
        by_cases hq : q = p
        · rw [if_pos hq, if_pos hq]
        · rw [if_neg hq, if_neg hq, if_neg heq]

theorem getFile_setFile_self (fs : FS) (p : PyStr) (v : Nat) :
    getFile (setFile fs p v) p = some v := by
  simp [setFile, getFile]

theorem getFile_setFile_ne (fs : FS) (p q : PyStr) (v : Nat) (h : q ≠ p) :
    getFile (setFile fs p v) q = getFile fs q := by
  simp only [setFile, getFile]
  rw [if_neg (fun hc => h hc.symm), getFile_removeFile, if_neg h]

theorem getFile_mem (fs : FS) (p : PyStr) (c : Nat) (h : getFile fs p = some c) :
    (p, c) ∈ fs := by
  induction fs with
  | nil => simp [getFile] at h
  | cons e rest ih =>
    simp only [getFile] at h
    by_cases he : e.1 = p
    · rw [if_pos he] at h
      injection h with h
      have hpc : (p, c) = e := Prod.ext he.symm h.symm
      rw [hpc]
      exact List.mem_cons_self _ _
    · rw [if_neg he] at h
      exact List.mem_cons_of_mem _ (ih h)

theorem processFile_skip (dest : PyStr) (st : OrgState) (f : SrcFile)
    (h : isfile st.fs (destPath dest f) = true) :
    processFile dest st f =
      { st with events := st.events ++ [Event.skippedExists (destPath dest f)],
                pruneList := addPrune st.pruneList (dirname f.path) } := by
  simp only [processFile]
  rw [if_pos h]

theorem processFile_move (dest : PyStr) (st : OrgState) (f : SrcFile) (c : Nat)
    (hfree : isfile st.fs (destPath dest f) = false)
    (hsrc : getFile st.fs f.path = some c) :
    processFile dest st f =
      ⟨setFile (removeFile st.fs f.path) (destPath dest f) c,
       addPrune st.pruneList (dirname f.path),
       st.events ++ [Event.moved f.path (destPath dest f)]⟩ := by
  simp only [processFile]
  rw [if_neg (by simp [hfree]), hsrc]

theorem processFile_fail (dest : PyStr) (st : OrgState) (f : SrcFile)
    (hfree : isfile st.fs (destPath dest f) = false)
    (hsrc : getFile st.fs f.path = none) :
    processFile dest st f = { st with events := st.events ++ [Event.failedMove f.path] } := by
  simp only [processFile]
  rw [if_neg (by simp [hfree]), hsrc]

theorem processFile_one_event (dest : PyStr) (st : OrgState) (f : SrcFile) :
    ∃ e, (processFile dest st f).events = st.events ++ [e] ∧ isPruneEvent e = false := by
  simp only [processFile]
  by_cases h : isfile st.fs (destPath dest f) = true
  · rw [if_pos h]
    exact ⟨_, rfl, rfl⟩
  · rw [if_neg h]
    cases hs : getFile st.fs f.path with
    | some c => exact ⟨_, rfl, rfl⟩
    | none => exact ⟨_, rfl, rfl⟩

theorem pruneStep_one_event (st : OrgState) (d : PyStr) :
    ∃ e, (pruneStep st d).events = st.events ++ [e] ∧ isPruneEvent e = true := by
  unfold pruneStep
  by_cases h : dirEmpty st.fs d = true
  · rw [if_pos h]
    exact ⟨_, rfl, rfl⟩
  · rw [if_neg h]
    exact ⟨_, rfl, rfl⟩

theorem foldl_processFile_events (dest : PyStr) (files : List SrcFile) :
    ∀ st : OrgState, ∃ tail,
      (files.foldl (processFile dest) st).events = st.events ++ tail
      ∧ (∀ e ∈ tail, isPruneEvent e = false)
      ∧ tail.length = files.length := by
  induction files with
  | nil => exact fun st => ⟨[], by simp, fun e he => absurd he (List.not_mem_nil e), rfl⟩
  | cons f fsl ih =>
    intro st
    obtain ⟨e1, he1, hp1⟩ := processFile_one_event dest st f
    obtain ⟨tail, ht, hall, hlen⟩ := ih (processFile dest st f)
    refine ⟨e1 :: tail, ?_, ?_, by simp [hlen]⟩
    · rw [List.foldl_cons, ht, he1]
      simp
    · intro e he
      rcases List.mem_cons.mp he with h | h
      · rw [h]; exact hp1
      · exact hall e h

theorem foldl_pruneStep_events (dirs : List PyStr) :
    ∀ st : OrgState, ∃ tail,
      (dirs.foldl pruneStep st).events = st.events ++ tail
      ∧ (∀ e ∈ tail, isPruneEvent e = true)
      ∧ tail.length = dirs.length := by
  induction dirs with
  | nil => exact fun st => ⟨[], by simp, fun e he => absurd he (List.not_mem_nil e), rfl⟩
  | cons d ds ih =>
    intro st
    obtain ⟨e1, he1, hp1⟩ := pruneStep_one_event st d
    obtain ⟨tail, ht, hall, hlen⟩ := ih (pruneStep st d)
    refine ⟨e1 :: tail, ?_, ?_, by simp [hlen]⟩
    · rw [List.foldl_cons, ht, he1]
      simp
    · intro e he
      rcases List.mem_cons.mp he with h | h
      · rw [h]; exact hp1
      · exact hall e h

/-- C2: for every file whose resolved destination path already exists, the
relocation step does not overwrite: it records `SkippedExists` and leaves
every file (source and destination included) unchanged; and when two files
resolve to the identical destination path, the second file's relocation is
skipped while the first file's completed move and the second file's source
are untouched. -/
theorem relocate_no_clobber :
    (∀ dest st f, isfile st.fs (destPath dest f) = true →
        (processFile dest st f).fs = st.fs
        ∧ (processFile dest st f).events
            = st.events ++ [Event.skippedExists (destPath dest f)])
    ∧ (∀ dest f1 f2 fs0 c1,
        destPath dest f1 = destPath dest f2 →
        getFile fs0 f1.path = some c1 →
        isfile fs0 (destPath dest f1) = false →
        f2.path ≠ f1.path → f2.path ≠ destPath dest f1 →
        (organize_files dest false [f1, f2] fs0).events
            = [Event.moved f1.path (destPath dest f1),
               Event.skippedExists (destPath dest f1)]
        ∧ getFile (organize_files dest false [f1, f2] fs0).fs (destPath dest f1) = some c1
        ∧ getFile (organize_files dest false [f1, f2] fs0).fs f2.path
            = getFile fs0 f2.path) := by
  constructor
  · intro dest st f h
    rw [processFile_skip dest st f h]
    exact ⟨rfl, rfl⟩
  · intro dest f1 f2 fs0 c1 hsame hsrc1 hfree hne1 hne2
    have horg : organize_files dest false [f1, f2] fs0
        = processFile dest (processFile dest ⟨fs0, [], []⟩ f1) f2 := rfl
    have h1 := processFile_move dest ⟨fs0, [], []⟩ f1 c1 hfree hsrc1
    have hisf2 : isfile (setFile (removeFile fs0 f1.path) (destPath dest f1) c1)
        (destPath dest f2) = true := by
      rw [← hsame]
      simp [isfile, getFile_setFile_self]
    rw [horg, h1, processFile_skip dest _ f2 hisf2]
    refine ⟨?_, ?_, ?_⟩
    · simp [← hsame]
    · exact getFile_setFile_self _ _ _
    · rw [getFile_setFile_ne _ _ _ _ hne2, getFile_removeFile, if_neg hne1]

/-- Witness for C2: two files with the same base name resolving to the same
destination; the first is moved, the second skipped, contents preserved. -/
theorem relocate_no_clobber_witness :
    (organize_files (str "/lib") false
        [⟨str "src/Jane Doe - My Book.m4b", noTags⟩,
         ⟨str "alt/Jane Doe - My Book.m4b", noTags⟩]
        [(str "src/Jane Doe - My Book.m4b", 1),
         (str "alt/Jane Doe - My Book.m4b", 2)]).events
      = [Event.moved (str "src/Jane Doe - My Book.m4b")
           (destPath (str "/lib") ⟨str "src/Jane Doe - My Book.m4b", noTags⟩),
         Event.skippedExists (destPath (str "/lib") ⟨str "src/Jane Doe - My Book.m4b", noTags⟩)]
    ∧ getFile (organize_files (str "/lib") false
        [⟨str "src/Jane Doe - My Book.m4b", noTags⟩,
         ⟨str "alt/Jane Doe - My Book.m4b", noTags⟩]
        [(str "src/Jane Doe - My Book.m4b", 1),
         (str "alt/Jane Doe - My Book.m4b", 2)]).fs
        (destPath (str "/lib") ⟨str "src/Jane Doe - My Book.m4b", noTags⟩) = some 1
    ∧ getFile (organize_files (str "/lib") false
        [⟨str "src/Jane Doe - My Book.m4b", noTags⟩,
         ⟨str "alt/Jane Doe - My Book.m4b", noTags⟩]
        [(str "src/Jane Doe - My Book.m4b", 1),
         (str "alt/Jane Doe - My Book.m4b", 2)]).fs
        (str "alt/Jane Doe - My Book.m4b")
      = getFile [(str "src/Jane Doe - My Book.m4b", 1),
                 (str "alt/Jane Doe - My Book.m4b", 2)]
          (str "alt/Jane Doe - My Book.m4b") :=
  relocate_no_clobber.2 (str "/lib") _ _ _ 1
    (by decide) (by decide) (by decide) (by decide) (by decide)

/-- C5 counterexample: the file `"src/badname.m4b"` with unreadable metadata
yields author and title from neither tags nor the filename pattern, yet no
error is raised and no `ResolutionError` exists: the resolver returns two
empty strings and the relocation moves the file to `/lib/ - .m4b`, a
destination built from the empty author/title segments. -/
theorem unresolved_file_still_moved_cex :
    resolveNames ⟨str "src/badname.m4b", noTags⟩ = ([], [])
    ∧ (organize_files (str "/lib") false [⟨str "src/badname.m4b", noTags⟩]
        [(str "src/badname.m4b", 7)]).events
      = [Event.moved (str "src/badname.m4b") (str "/lib/ - .m4b")]
    ∧ getFile (organize_files (str "/lib") false [⟨str "src/badname.m4b", noTags⟩]
        [(str "src/badname.m4b", 7)]).fs (str "/lib/ - .m4b") = some 7 := by
  decide

/-- C5 (amended): when neither metadata nor the filename pattern yields
author and title, resolution does not fail — the code has no
`ResolutionError`.  Author and title remain empty strings and the relocation
step moves the file to the destination built from the empty segments,
`join(join(join(destination, ""), ""), " - .m4b")`. -/
theorem unresolved_file_moved_empty_segments (dest : PyStr) (st : OrgState)
    (f : SrcFile) (c : Nat)
    (hres : resolveNames f = ([], []))
    (hsrc : getFile st.fs f.path = some c)
    (hfree : isfile st.fs (destPath dest f) = false) :
    destPath dest f = pjoin (pjoin (pjoin dest []) []) (str " - .m4b")
    ∧ (processFile dest st f).events
        = st.events ++ [Event.moved f.path (destPath dest f)] := by
  constructor
  · simp only [destPath, hres]
    rfl
  · rw [processFile_move dest st f c hfree hsrc]

/-- Witness for the amended C5 at the concrete unresolvable file. -/
theorem unresolved_file_moved_empty_segments_witness :
    destPath (str "/lib") ⟨str "src/badname.m4b", noTags⟩
        = pjoin (pjoin (pjoin (str "/lib") []) []) (str " - .m4b")
    ∧ (processFile (str "/lib") ⟨[(str "src/badname.m4b", 7)], [], []⟩
          ⟨str "src/badname.m4b", noTags⟩).events
        = [] ++ [Event.moved (str "src/badname.m4b")
            (destPath (str "/lib") ⟨str "src/badname.m4b", noTags⟩)] :=
  unresolved_file_moved_empty_segments _ _ _ 7 (by decide) (by decide) (by decide)

/-- C7: with pruning enabled, the event trace of `organize_files` is the
relocation trace followed by the prune trace: every prune event comes after
every relocation event (one relocation event per input file, so pruning
starts only after the last move has finished), and the prune pass emits
exactly one event per accumulated candidate — a failing `os.removedirs` is
caught, logged as an event, and never aborts the pass or the batch. -/
theorem prune_after_all_relocations (dest : PyStr) (files : List SrcFile) (fs0 : FS) :
    ∃ pre post,
      (organize_files dest true files fs0).events = pre ++ post
      ∧ (∀ e ∈ pre, isPruneEvent e = false)
      ∧ (∀ e ∈ post, isPruneEvent e = true)
      ∧ pre.length = files.length
      ∧ post.length = (files.foldl (processFile dest) ⟨fs0, [], []⟩).pruneList.length := by
  obtain ⟨pre, hpre, hallp, hlenp⟩ := foldl_processFile_events dest files ⟨fs0, [], []⟩
  obtain ⟨post, hpost, hallq, hlenq⟩ :=
    foldl_pruneStep_events (files.foldl (processFile dest) ⟨fs0, [], []⟩).pruneList
      (files.foldl (processFile dest) ⟨fs0, [], []⟩)
  refine ⟨pre, post, ?_, hallp, hallq, hlenp, hlenq⟩
  have horg : organize_files dest true files fs0
      = (files.foldl (processFile dest) ⟨fs0, [], []⟩).pruneList.foldl pruneStep
          (files.foldl (processFile dest) ⟨fs0, [], []⟩) := rfl
  rw [horg, hpost, hpre]
  simp

/-- C8: an exception during the move of one file (modelled cause: missing
source file) is caught and reported as a per-file failure event, leaving the
filesystem and prune list untouched; and the loop processes every file of
the batch — the relocation trace has exactly one event per input file,
failures included, so one failing file never aborts the remainder. -/
theorem move_failure_isolated :
    (∀ dest st f, isfile st.fs (destPath dest f) = false →
        getFile st.fs f.path = none →
        processFile dest st f
          = { st with events := st.events ++ [Event.failedMove f.path] })
    ∧ (∀ (dest : PyStr) (files : List SrcFile) (fs0 : FS),
        ((files.foldl (processFile dest) (⟨fs0, [], []⟩ : OrgState)).events).length
          = files.length) := by
  refine ⟨processFile_fail, ?_⟩
  intro dest files fs0
  obtain ⟨tail, ht, _, hlen⟩ := foldl_processFile_events dest files ⟨fs0, [], []⟩
  rw [ht]
  simpa using hlen

/-- Witness for C8: a file whose source is missing produces exactly one
failure event and changes nothing else. -/
theorem move_failure_isolated_witness :
    processFile (str "/lib") (⟨[], [], []⟩ : OrgState) ⟨str "a.m4b", noTags⟩
      = { (⟨[], [], []⟩ : OrgState) with
          events := [] ++ [Event.failedMove (str "a.m4b")] } :=
  move_failure_isolated.1 (str "/lib") ⟨[], [], []⟩ ⟨str "a.m4b", noTags⟩
    (by decide) (by decide)

/-- C10: a `SkippedExists` outcome still appends the source file's parent
directory to the prune list, so with pruning enabled a directory that still
contains the unmoved source file is attempted for removal and the attempt
fails and is only logged; only the exception (`Failed`) path, whose
`continue` skips the append, leaves the prune list unchanged. -/
theorem skip_adds_prune_candidate :
    (∀ dest st f, isfile st.fs (destPath dest f) = true →
        (processFile dest st f).pruneList = addPrune st.pruneList (dirname f.path))
    ∧ (∀ dest st f, isfile st.fs (destPath dest f) = false →
        getFile st.fs f.path = none →
        (processFile dest st f).pruneList = st.pruneList)
    ∧ (∀ st d, dirEmpty st.fs d = false →
        pruneStep st d = { st with events := st.events ++ [Event.pruneFailed d] })
    ∧ (∀ fs d p c, getFile fs p = some c → underDir d p = true →
        dirEmpty fs d = false) := by
  refine ⟨?_, ?_, ?_, ?_⟩
  · intro dest st f h
    rw [processFile_skip dest st f h]
  · intro dest st f h1 h2
    rw [processFile_fail dest st f h1 h2]
  · intro st d h
    unfold pruneStep
    rw [if_neg (by simp [h])]
  · intro fs d p c hget hund
    have hmem : (p, c) ∈ fs := getFile_mem fs p c hget
    simp only [dirEmpty, Bool.not_eq_false']
    rw [List.any_eq_true]
    exact ⟨(p, c), hmem, hund⟩

/-- Witness for C10: a skipped file's parent directory enters the prune list,
and a directory still holding a file is not empty. -/
theorem skip_adds_prune_candidate_witness :
    (processFile (str "/lib")
        ⟨[(destPath (str "/lib") ⟨str "src/a.m4b", noTags⟩, 3)], [], []⟩
        ⟨str "src/a.m4b", noTags⟩).pruneList
      = addPrune [] (dirname (str "src/a.m4b"))
    ∧ dirEmpty [(str "src/a.m4b", 7)] (str "src") = false :=
  ⟨skip_adds_prune_candidate.1 (str "/lib") _ _ (by decide),
   skip_adds_prune_candidate.2.2.2 [(str "src/a.m4b", 7)] (str "src")
     (str "src/a.m4b") 7 (by decide) (by decide)⟩
